import Mathlib

/-!
Verification of the Web3 Sherlock transaction-graph dashboard.

The development shallowly embeds the core logic of the page component
(`fetchAndProcessTransaction`, `handleAnalyse` and the graph-synthesis
block inside the effect hook): the receipt→graph transformation, the
input validator, and the state transitions of a submission, including
the join of the two RPC promises.  JS `bigint` is modelled by `Nat`
(all chain quantities are unsigned), JS strings by `String`, nullable
values by `Option`, and JS truthiness of a nullable string by the test
`getD "" ≠ ""`.
-/

namespace Web3Sherlock

/-- ASCII lowercasing, the behaviour of JS `String.prototype.toLowerCase`
on the hex address strings the component works with. -/
def toLowerStr (s : String) : String :=
  ⟨s.data.map Char.toLower⟩

/-- JS `s.slice(0, n)`: the first `n` characters. -/
def sliceFirst (s : String) (n : Nat) : String :=
  ⟨s.data.take n⟩

/-- JS `s.slice(-n)`: the last `n` characters (the whole string when it
is shorter than `n`, as in JS where the start index clamps to 0). -/
def sliceLast (s : String) (n : Nat) : String :=
  ⟨s.data.drop (s.data.length - n)⟩

/-- A log entry of a transaction receipt; only the emitting contract
address is consumed by the component. -/
structure LogEntry where
  address : String
deriving DecidableEq

/-- The transaction fields consumed by the component (`transaction.value`). -/
structure TransactionRecord where
  value : Nat
deriving DecidableEq

/-- The receipt fields consumed by the component. -/
structure ReceiptRecord where
  fromAddr : String
  toAddr : Option String
  logs : List LogEntry
  blockNumber : Nat
  gasUsed : Nat
  effectiveGasPrice : Nat
deriving DecidableEq

/-- The `TxInfo` summary record of the page component. -/
structure TxInfo where
  fromAddr : String
  toAddr : Option String
  logsCount : Nat
  value : Nat
  blockNumber : Nat
  gasUsed : Nat
  effectiveGasPrice : Nat
deriving DecidableEq

/-- A react-flow node as produced by the synthesizer: id, layout
position and label (purely visual styling fields are not modelled). -/
structure GraphNode where
  id : String
  posX : Nat
  posY : Nat
  label : String
deriving DecidableEq

/-- A react-flow edge as produced by the synthesizer. -/
structure GraphEdge where
  id : String
  source : String
  target : String
  label : Option String
deriving DecidableEq

/-- Modelled from the spec: the external `formatEther` of the viem
library, i.e. `formatUnits(value, 18)` restricted to nonnegative
values — "arbitrary-precision integer divided by 10^18, formatted
without precision loss from floating-point rounding".  It renders the
decimal string of the integer, left-pads it to 18 digits, splits
integer and fractional parts, and strips trailing zeros from the
fraction. -/
def formatEther (value : Nat) : String :=
  let display := Nat.repr value
  let padded : List Char :=
    List.replicate (18 - display.data.length) '0' ++ display.data
  let integer : List Char := padded.take (padded.length - 18)
  let fraction : List Char :=
    (padded.drop (padded.length - 18)).reverse.dropWhile (· = '0') |>.reverse
  (if integer.isEmpty then "0" else ⟨integer⟩) ++
    (if fraction.isEmpty then "" else "." ++ (⟨fraction⟩ : String))

/-- The per-address log-emission count: `logCounts.get(addr) || 0`, where
`logCounts` counts receipt logs keyed by lowercased emitting address. -/
def emissionCount (logs : List LogEntry) (addr : String) : Nat :=
  (logs.map fun l => toLowerStr l.address).count addr

/-- First-occurrence deduplication, the behaviour of
`[...new Set(xs)]` in JS (insertion order, first occurrence kept). -/
def dedupFirst : List String → List String
  | [] => []
  | a :: rest => a :: (dedupFirst rest).filter (fun b => b ≠ a)

/-- The contract-node loop of the synthesizer: iterate the
`uniqueLogAddresses` with their `forEach` index, skip addresses already
present in `addressMap` (modelled as the list of registered ids), and
push a contract node sized/labelled by the emission count, registering
its address. -/
def logNodes (logs : List LogEntry) (addrMap : List String) :
    List (Nat × String) → List GraphNode
  | [] => []
  | (index, logAddress) :: rest =>
    if logAddress ∈ addrMap then logNodes logs addrMap rest
    else
      { id := logAddress, posX := 550, posY := 50 + index * 120,
        label := "Contract: " ++ sliceFirst logAddress 6 ++ "..." ++
          sliceLast logAddress 4 ++ "\nEvents: " ++
          toString (emissionCount logs logAddress) } ::
      logNodes logs (logAddress :: addrMap) rest

/-- The result of the graph-synthesis block: the node and edge lists
handed to `setNodes` / `setEdges`. -/
structure SynthResult where
  nodes : List GraphNode
  edges : List GraphEdge
deriving DecidableEq

/-- The graph-synthesis block of `fetchAndProcessTransaction`
(the deduplicated, frequency-scaled variant): build the log-count
table, push the sender node, push the receiver node when `receipt.toAddr`
is truthy, push one contract node per unique lowercased log address not
already registered, then build the sender→receiver edge labelled with
the formatted value and one receiver→contract edge per unique log
address distinct from the receiver. -/
def synthesizeGraph (transaction : TransactionRecord)
    (receipt : ReceiptRecord) : SynthResult :=
  let fromAddress := toLowerStr receipt.fromAddr
  let fromNode : GraphNode :=
    { id := fromAddress, posX := 50, posY := 200,
      label := "From: " ++ sliceFirst receipt.fromAddr 6 ++ "..." ++
        sliceLast receipt.fromAddr 4 }
  let t := receipt.toAddr.getD ""
  let toAddress := toLowerStr t
  let uniqueLogAddresses :=
    dedupFirst (receipt.logs.map fun l => toLowerStr l.address)
  let toNode : GraphNode :=
    { id := toAddress, posX := 300, posY := 200,
      label := "To: " ++ sliceFirst t 6 ++ "..." ++ sliceLast t 4 ++
        "\nEvents: " ++ toString (emissionCount receipt.logs toAddress) }
  let baseNodes := if t ≠ "" then [fromNode, toNode] else [fromNode]
  let addrMap := if t ≠ "" then [toAddress, fromAddress] else [fromAddress]
  let contractNodes := logNodes receipt.logs addrMap uniqueLogAddresses.enum
  let edges : List GraphEdge :=
    if t ≠ "" then
      { id := "e-" ++ receipt.fromAddr ++ "-" ++ t,
        source := fromAddress, target := toAddress,
        label := some (formatEther transaction.value ++ " ETH") } ::
      (uniqueLogAddresses.filter fun a => a ≠ toAddress).map (fun a =>
        { id := "e-main-" ++ t ++ "-" ++ a,
          source := toAddress, target := a, label := none })
    else []
  { nodes := baseNodes ++ contractNodes, edges := edges }

/-- The summary record built by `setTxInfo` on a successful fetch. -/
def mkTxInfo (transaction : TransactionRecord) (receipt : ReceiptRecord) :
    TxInfo :=
  { fromAddr := receipt.fromAddr, toAddr := receipt.toAddr,
    logsCount := receipt.logs.length, value := transaction.value,
    blockNumber := receipt.blockNumber, gasUsed := receipt.gasUsed,
    effectiveGasPrice := receipt.effectiveGasPrice }

/-- Rendering of the receiver-address summary field:
`txInfo.to || 'N/A (Contract Creation)'` (JS falsiness of `null`,
`undefined` and the empty string). -/
def renderToAddress (info : TxInfo) : String :=
  match info.toAddr with
  | none => "N/A (Contract Creation)"
  | some s => if s = "" then "N/A (Contract Creation)" else s

/-- Hexadecimal-digit test for one character, the character class
`[a-fA-F0-9]` of the validation regex. -/
def isHexDigit (c : Char) : Bool :=
  ('0' ≤ c && c ≤ '9') || ('a' ≤ c && c ≤ 'f') || ('A' ≤ c && c ≤ 'F')

/-- The validation regex `/^0x[a-fA-F0-9]{64}$/` of `handleAnalyse`:
exactly 66 characters, the first two being `0x`, the remaining 64 hex
digits of either case. -/
def isValidHash (s : String) : Bool :=
  s.data.length == 66 && s.data.take 2 == ['0', 'x'] &&
    (s.data.drop 2).all isHexDigit

/-- The observable UI state of the page component. -/
structure UIState where
  inputHash : String
  targetHash : Option String
  txInfo : Option TxInfo
  isLoading : Bool
  error : Option String
  nodes : List GraphNode
  edges : List GraphEdge
deriving DecidableEq

/-- `handleAnalyse`: clear the error, then either set the target hash
(when the input is nonempty and matches the regex, triggering the
fetch effect) or report the validation error and clear target, summary
and graph. -/
def handleAnalyse (st : UIState) : UIState :=
  let st1 := { st with error := none }
  if st1.inputHash ≠ "" ∧ isValidHash st1.inputHash = true then
    { st1 with targetHash := some st1.inputHash }
  else
    { st1 with
      error := some "エラー: 正しいトランザクションハッシュの形式ではありません。",
      targetHash := none, txInfo := none, nodes := [], edges := [] }

/-- The settlement of one JS promise: resolution with a (nullable)
value, or rejection with an error carrying a `name`. -/
inductive PromiseResult (α : Type) where
  | ok (value : Option α)
  | thrown (errName : String)
deriving DecidableEq

/-- The joined outcome of the two RPC requests awaited together. -/
inductive FetchJoin where
  | resolved (transaction : Option TransactionRecord)
      (receipt : Option ReceiptRecord)
  | thrown (errName : String)
deriving DecidableEq

/-- `Promise.all` join semantics over the pair
`[getTransaction, getTransactionReceipt]` (behaviour of the JS
runtime): if either promise rejects, the join rejects — with the
transaction's error when the transaction rejects, otherwise the
receipt's — and only when both resolve does the join resolve with the
pair of values. -/
def promiseAll (transaction : PromiseResult TransactionRecord)
    (receipt : PromiseResult ReceiptRecord) : FetchJoin :=
  match transaction, receipt with
  | .thrown n, _ => .thrown n
  | .ok _, .thrown n => .thrown n
  | .ok t, .ok r => .resolved t r

/-- The body of `fetchAndProcessTransaction` as a state transition:
first clear error, summary and graph and raise the loading flag; fail
fast on a missing endpoint URL; then dispatch on the joined fetch
outcome — null results give the info-missing error, a thrown
`TransactionNotFoundError` the not-found error, any other throw the
generic error, and a full result installs the summary and the
synthesized graph; finally drop the loading flag. -/
def fetchAndProcessTransaction (alchemyUrl : Option String)
    (join : FetchJoin) (st : UIState) : UIState :=
  let st1 := { st with isLoading := true, error := none, txInfo := none,
                       nodes := [], edges := [] }
  if alchemyUrl.getD "" = "" then
    { st1 with error := some "エラー: AlchemyのURLが設定されていません。",
               isLoading := false }
  else
    let st2 :=
      match join with
      | .resolved (some transaction) (some receipt) =>
        let g := synthesizeGraph transaction receipt
        { st1 with txInfo := some (mkTxInfo transaction receipt),
                   nodes := g.nodes, edges := g.edges }
      | .resolved _ _ =>
        { st1 with error := some "トランザクションの情報が見つかりませんでした。" }
      | .thrown n =>
        if n = "TransactionNotFoundError" then
          { st1 with error := some "トランザクションが見つかりませんでした。" }
        else
          { st1 with error := some "予期せぬエラーが発生しました。" }
    { st2 with isLoading := false }

/-! ## Helper lemmas -/

theorem mem_dedupFirst {a : String} : ∀ {l : List String},
    a ∈ dedupFirst l ↔ a ∈ l
  | [] => Iff.rfl
  | b :: rest => by
    simp only [dedupFirst, List.mem_cons, List.mem_filter, decide_eq_true_eq]
    by_cases hab : a = b
    · simp [hab]
    · simp [hab, mem_dedupFirst (l := rest)]

theorem dedupFirst_nodup : ∀ l : List String, (dedupFirst l).Nodup
  | [] => List.nodup_nil
  | b :: rest => by
    simp only [dedupFirst, List.nodup_cons]
    refine ⟨fun hmem => ?_, (dedupFirst_nodup rest).filter _⟩
    have := (List.mem_filter.1 hmem).2
    simp at this

theorem logNodes_id_mem {logs : List LogEntry} :
    ∀ {ind : List (Nat × String)} {m : List String}
      {n : GraphNode}, n ∈ logNodes logs m ind →
      n.id ∈ ind.map Prod.snd ∧ n.id ∉ m
  | [], _, _, h => absurd h (List.not_mem_nil _)
  | (i, x) :: rest, m, n, h => by
    simp only [logNodes] at h
    by_cases hx : x ∈ m
    · rw [if_pos hx] at h
      obtain ⟨h1, h2⟩ := logNodes_id_mem h
      exact ⟨List.mem_cons_of_mem _ h1, h2⟩
    · rw [if_neg hx] at h
      rcases List.mem_cons.1 h with h | h
      · subst h; exact ⟨List.mem_cons_self _ _, hx⟩
      · obtain ⟨h1, h2⟩ := logNodes_id_mem h
        have hne : n.id ∉ (x :: m) := h2
        exact ⟨List.mem_cons_of_mem _ h1,
          fun hm => hne (List.mem_cons_of_mem _ hm)⟩

theorem logNodes_id_nodup {logs : List LogEntry} :
    ∀ {ind : List (Nat × String)} {m : List String},
      (ind.map Prod.snd).Nodup →
      ((logNodes logs m ind).map GraphNode.id).Nodup
  | [], _, _ => List.nodup_nil
  | (i, x) :: rest, m, h => by
    simp only [List.map_cons, List.nodup_cons] at h
    simp only [logNodes]
    by_cases hx : x ∈ m
    · rw [if_pos hx]; exact logNodes_id_nodup h.2
    · rw [if_neg hx]
      simp only [List.map_cons, List.nodup_cons]
      refine ⟨fun hmem => ?_, logNodes_id_nodup h.2⟩
      obtain ⟨n, hn, hid⟩ := List.mem_map.1 hmem
      obtain ⟨h1, _⟩ := logNodes_id_mem hn
      rw [hid] at h1
      exact h.1 h1

theorem mem_logNodes_of_mem {logs : List LogEntry} {a : String} :
    ∀ {ind : List (Nat × String)} {m : List String},
      a ∈ ind.map Prod.snd →
      a ∈ m ∨ a ∈ (logNodes logs m ind).map GraphNode.id
  | [], _, h => absurd h (List.not_mem_nil _)
  | (i, x) :: rest, m, h => by
    simp only [logNodes]
    rcases List.mem_cons.1 h with hax | harest
    · by_cases hx : x ∈ m
      · rw [if_pos hx]; exact Or.inl (hax ▸ hx)
      · rw [if_neg hx]
        exact Or.inr (by simp [hax])
    · by_cases hx : x ∈ m
      · rw [if_pos hx]; exact mem_logNodes_of_mem harest
      · rw [if_neg hx]
        rcases mem_logNodes_of_mem (m := x :: m) harest with hm | hids
        · rcases List.mem_cons.1 hm with hax | ham
          · exact Or.inr (by simp [hax])
          · exact Or.inl ham
        · exact Or.inr (List.mem_cons_of_mem _ hids)

theorem ne_empty_of_isValidHash {s : String} (h : isValidHash s = true) :
    s ≠ "" := by
  rintro rfl
  exact absurd h (by decide)

/-! ## Claim theorems -/

/-- C5: the validator accepts exactly the strings matching
`0x` + 64 hex characters; on a match the target hash is set (which is
what triggers the fetch effect) and on any other input a validation
error is reported, the target hash is reset to `none` (so no fetch is
attempted) and the previously displayed summary, nodes and edges are
cleared. -/
theorem handleAnalyse_validation (st : UIState) :
    (isValidHash st.inputHash = true →
      handleAnalyse st =
        { st with error := none, targetHash := some st.inputHash }) ∧
    (isValidHash st.inputHash = false →
      (handleAnalyse st).targetHash = none ∧
      (handleAnalyse st).error =
        some "エラー: 正しいトランザクションハッシュの形式ではありません。" ∧
      (handleAnalyse st).txInfo = none ∧
      (handleAnalyse st).nodes = [] ∧
      (handleAnalyse st).edges = []) := by
  constructor
  · intro h
    have hne := ne_empty_of_isValidHash h
    simp [handleAnalyse, hne, h]
  · intro h
    have hcond : ¬ (st.inputHash ≠ "" ∧ isValidHash st.inputHash = true) := by
      rintro ⟨-, h2⟩
      rw [h] at h2
      exact Bool.false_ne_true h2
    simp [handleAnalyse, hcond]

/-- Witness for C5: a concrete 66-character hash is accepted and the
target hash set; the concrete string "nothex" is rejected with the
validation error and cleared summary/nodes/edges. -/
theorem handleAnalyse_validation_witness :
    (handleAnalyse
        ⟨"0xaaaaaaaaaaaaaaaaaaaaaaaaaaaaaaaaaaaaaaaaaaaaaaaaaaaaaaaaaaaaaaaa",
          none, none, false, none, [], []⟩ =
      { inputHash :=
          "0xaaaaaaaaaaaaaaaaaaaaaaaaaaaaaaaaaaaaaaaaaaaaaaaaaaaaaaaaaaaaaaaa",
        targetHash := some
          "0xaaaaaaaaaaaaaaaaaaaaaaaaaaaaaaaaaaaaaaaaaaaaaaaaaaaaaaaaaaaaaaaa",
        txInfo := none, isLoading := false, error := none,
        nodes := [], edges := [] }) ∧
    ((handleAnalyse ⟨"nothex", none, none, false, none, [], []⟩).targetHash
        = none ∧
      (handleAnalyse ⟨"nothex", none, none, false, none, [], []⟩).error =
        some "エラー: 正しいトランザクションハッシュの形式ではありません。" ∧
      (handleAnalyse ⟨"nothex", none, none, false, none, [], []⟩).txInfo
        = none ∧
      (handleAnalyse ⟨"nothex", none, none, false, none, [], []⟩).nodes
        = [] ∧
      (handleAnalyse ⟨"nothex", none, none, false, none, [], []⟩).edges
        = []) :=
  ⟨(handleAnalyse_validation _).1 (by decide),
    (handleAnalyse_validation _).2 (by decide)⟩

/-- C6: every error outcome clears the summary and the graph.  On the
fetch side any final state carrying an error message (configuration
missing, null result, thrown not-found or generic failure) has
`txInfo = none` and empty node and edge lists; on the validation side a
rejected input likewise leaves an error with cleared summary and
graph. -/
theorem errors_clear_stale (url : Option String) (join : FetchJoin)
    (st st' : UIState) :
    ((fetchAndProcessTransaction url join st).error ≠ none →
      (fetchAndProcessTransaction url join st).txInfo = none ∧
      (fetchAndProcessTransaction url join st).nodes = [] ∧
      (fetchAndProcessTransaction url join st).edges = []) ∧
    (isValidHash st'.inputHash = false →
      (handleAnalyse st').error ≠ none ∧
      (handleAnalyse st').txInfo = none ∧
      (handleAnalyse st').nodes = [] ∧
      (handleAnalyse st').edges = []) := by
  constructor
  · intro herr
    by_cases hurl : url.getD "" = ""
    · simp [fetchAndProcessTransaction, hurl]
    · cases join with
      | resolved t r =>
        cases t <;> cases r <;>
          simp_all [fetchAndProcessTransaction, hurl]
      | thrown n =>
        by_cases hn : n = "TransactionNotFoundError" <;>
          simp [fetchAndProcessTransaction, hurl, hn]
  · intro h
    have hcond : ¬ (st'.inputHash ≠ "" ∧ isValidHash st'.inputHash = true) := by
      rintro ⟨-, h2⟩
      rw [h] at h2
      exact Bool.false_ne_true h2
    simp [handleAnalyse, hcond]

/-- Witness for C6: with the endpoint URL missing the fetch ends in an
error state with cleared summary/nodes/edges even when the previous
state held a node; a rejected validation on the same stale state also
clears everything. -/
theorem errors_clear_stale_witness :
    ((fetchAndProcessTransaction none (FetchJoin.thrown "X")
        ⟨"", none, none, false, none, [⟨"0xaa", 0, 0, "n"⟩], []⟩).txInfo
          = none ∧
      (fetchAndProcessTransaction none (FetchJoin.thrown "X")
        ⟨"", none, none, false, none, [⟨"0xaa", 0, 0, "n"⟩], []⟩).nodes
          = [] ∧
      (fetchAndProcessTransaction none (FetchJoin.thrown "X")
        ⟨"", none, none, false, none, [⟨"0xaa", 0, 0, "n"⟩], []⟩).edges
          = []) ∧
    ((handleAnalyse
        ⟨"bad", none, none, false, none, [⟨"0xaa", 0, 0, "n"⟩], []⟩).error
          ≠ none ∧
      (handleAnalyse
        ⟨"bad", none, none, false, none, [⟨"0xaa", 0, 0, "n"⟩], []⟩).txInfo
          = none ∧
      (handleAnalyse
        ⟨"bad", none, none, false, none, [⟨"0xaa", 0, 0, "n"⟩], []⟩).nodes
          = [] ∧
      (handleAnalyse
        ⟨"bad", none, none, false, none, [⟨"0xaa", 0, 0, "n"⟩], []⟩).edges
          = []) :=
  ⟨(errors_clear_stale none (FetchJoin.thrown "X") _
      ⟨"bad", none, none, false, none, [], []⟩).1 (by decide),
    (errors_clear_stale none (FetchJoin.thrown "X")
      ⟨"", none, none, false, none, [], []⟩ _).2 (by decide)⟩

/-- C7: when the receipt promise resolves but the transaction promise
rejects with the not-found error, the `Promise.all` join rejects, so
the run ends with the specific not-found message, an empty graph and no
summary — never a partial graph built from the receipt alone. -/
theorem receipt_ok_transaction_not_found (u : String) (hu : u ≠ "")
    (r : ReceiptRecord) (st : UIState) :
    (fetchAndProcessTransaction (some u)
        (promiseAll (PromiseResult.thrown "TransactionNotFoundError")
          (PromiseResult.ok (some r))) st).error =
      some "トランザクションが見つかりませんでした。" ∧
    (fetchAndProcessTransaction (some u)
        (promiseAll (PromiseResult.thrown "TransactionNotFoundError")
          (PromiseResult.ok (some r))) st).nodes = [] ∧
    (fetchAndProcessTransaction (some u)
        (promiseAll (PromiseResult.thrown "TransactionNotFoundError")
          (PromiseResult.ok (some r))) st).edges = [] ∧
    (fetchAndProcessTransaction (some u)
        (promiseAll (PromiseResult.thrown "TransactionNotFoundError")
          (PromiseResult.ok (some r))) st).txInfo = none := by
  simp [fetchAndProcessTransaction, promiseAll, hu]

/-- Witness for C7 at a concrete URL, receipt and prior state. -/
theorem receipt_ok_transaction_not_found_witness :
    (fetchAndProcessTransaction (some "https://example")
        (promiseAll (PromiseResult.thrown "TransactionNotFoundError")
          (PromiseResult.ok
            (some ⟨"0xS1", some "0xR1", [], 0, 0, 0⟩)))
        ⟨"", none, none, false, none, [], []⟩).error =
      some "トランザクションが見つかりませんでした。" ∧
    (fetchAndProcessTransaction (some "https://example")
        (promiseAll (PromiseResult.thrown "TransactionNotFoundError")
          (PromiseResult.ok
            (some ⟨"0xS1", some "0xR1", [], 0, 0, 0⟩)))
        ⟨"", none, none, false, none, [], []⟩).nodes = [] ∧
    (fetchAndProcessTransaction (some "https://example")
        (promiseAll (PromiseResult.thrown "TransactionNotFoundError")
          (PromiseResult.ok
            (some ⟨"0xS1", some "0xR1", [], 0, 0, 0⟩)))
        ⟨"", none, none, false, none, [], []⟩).edges = [] ∧
    (fetchAndProcessTransaction (some "https://example")
        (promiseAll (PromiseResult.thrown "TransactionNotFoundError")
          (PromiseResult.ok
            (some ⟨"0xS1", some "0xR1", [], 0, 0, 0⟩)))
        ⟨"", none, none, false, none, [], []⟩).txInfo = none :=
  receipt_ok_transaction_not_found "https://example" (by decide) _ _

/-- C8: with no receiver address, no edge leaves the sender (in
particular no sender→receiver edge exists), and the receiver-address
summary field renders the contract-creation indicator. -/
theorem no_receiver_creation_indicator (transaction : TransactionRecord)
    (receipt : ReceiptRecord) (h : receipt.toAddr = none) :
    (∀ e ∈ (synthesizeGraph transaction receipt).edges,
      e.source ≠ toLowerStr receipt.fromAddr) ∧
    renderToAddress (mkTxInfo transaction receipt) =
      "N/A (Contract Creation)" := by
  constructor
  · intro e he
    simp [synthesizeGraph, h] at he
  · simp [renderToAddress, mkTxInfo, h]

/-- Witness for C8 at a concrete contract-creation receipt. -/
theorem no_receiver_creation_indicator_witness :
    (∀ e ∈ (synthesizeGraph ⟨7⟩
        ⟨"0xS1", none, [⟨"0xAA"⟩], 3, 4, 5⟩).edges,
      e.source ≠ toLowerStr "0xS1") ∧
    renderToAddress (mkTxInfo ⟨7⟩ ⟨"0xS1", none, [⟨"0xAA"⟩], 3, 4, 5⟩) =
      "N/A (Contract Creation)" :=
  no_receiver_creation_indicator ⟨7⟩ ⟨"0xS1", none, [⟨"0xAA"⟩], 3, 4, 5⟩ rfl

/-- C9: with no receiver address the synthesized edge list is entirely
empty, so contract nodes emitted for log addresses are isolated. -/
theorem no_receiver_edges_empty (transaction : TransactionRecord)
    (receipt : ReceiptRecord) (h : receipt.toAddr = none) :
    (synthesizeGraph transaction receipt).edges = [] := by
  simp [synthesizeGraph, h]

/-- Witness for C9 at a concrete contract-creation receipt carrying a
log (whose contract node is therefore isolated). -/
theorem no_receiver_edges_empty_witness :
    (synthesizeGraph ⟨7⟩ ⟨"0xS1", none, [⟨"0xAA"⟩], 3, 4, 5⟩).edges = [] :=
  no_receiver_edges_empty ⟨7⟩ ⟨"0xS1", none, [⟨"0xAA"⟩], 3, 4, 5⟩ rfl

theorem enum_map_snd_eq (l : List String) :
    l.enum.map Prod.snd = l :=
  List.enumFrom_map_snd 0 l

/-- C10: the synthesized graph is well-formed — the source and target
of every produced edge are ids of nodes produced in the same run. -/
theorem graph_wellformed (transaction : TransactionRecord)
    (receipt : ReceiptRecord) :
    ∀ e ∈ (synthesizeGraph transaction receipt).edges,
      e.source ∈ (synthesizeGraph transaction receipt).nodes.map
        GraphNode.id ∧
      e.target ∈ (synthesizeGraph transaction receipt).nodes.map
        GraphNode.id := by
  intro e he
  by_cases ht : receipt.toAddr.getD "" = ""
  · simp [synthesizeGraph, ht] at he
  · simp only [synthesizeGraph] at he ⊢
    rw [if_pos ht] at he
    rw [if_pos ht, if_pos ht]
    rcases List.mem_cons.1 he with rfl | hmem
    · constructor <;> simp
    · obtain ⟨a, ha, rfl⟩ := List.mem_map.1 hmem
      have ha' := (List.mem_filter.1 ha).1
      refine ⟨by simp, ?_⟩
      have hsnd : a ∈ ((dedupFirst
          (receipt.logs.map fun l => toLowerStr l.address)).enum.map
            Prod.snd) := by
        rw [enum_map_snd_eq]
        exact ha'
      rcases @mem_logNodes_of_mem receipt.logs a
          (dedupFirst (receipt.logs.map fun l => toLowerStr l.address)).enum
          [toLowerStr (receipt.toAddr.getD ""), toLowerStr receipt.fromAddr]
          hsnd with hm | hids
      · simp only [List.map_append, List.map_cons, List.map_nil,
          List.mem_append, List.mem_cons]
        rcases List.mem_cons.1 hm with h1 | h2
        · exact Or.inl (Or.inr (Or.inl h1))
        · simp only [List.mem_singleton] at h2
          exact Or.inl (Or.inl h2)
      · simp only [List.map_append, List.mem_append]
        exact Or.inr hids

/-- Witness for C10: in a concrete run with a receiver and one log, the
receiver→contract edge is in the produced edge list and both of its
endpoints are node ids of the same run. -/
theorem graph_wellformed_witness :
    (⟨"e-main-0xR1-0xaa", "0xr1", "0xaa", none⟩ : GraphEdge).source ∈
      (synthesizeGraph ⟨7⟩
        ⟨"0xS1", some "0xR1", [⟨"0xAA"⟩], 3, 4, 5⟩).nodes.map
          GraphNode.id ∧
    (⟨"e-main-0xR1-0xaa", "0xr1", "0xaa", none⟩ : GraphEdge).target ∈
      (synthesizeGraph ⟨7⟩
        ⟨"0xS1", some "0xR1", [⟨"0xAA"⟩], 3, 4, 5⟩).nodes.map
          GraphNode.id :=
  graph_wellformed ⟨7⟩ ⟨"0xS1", some "0xR1", [⟨"0xAA"⟩], 3, 4, 5⟩
    ⟨"e-main-0xR1-0xaa", "0xr1", "0xaa", none⟩ (by decide)

theorem count_eq_ite_of_nodup {a : String} :
    ∀ {l : List String}, l.Nodup → l.count a = if a ∈ l then 1 else 0
  | [], _ => rfl
  | b :: xs, d => by
    simp only [List.nodup_cons] at d
    by_cases hab : a = b
    · subst hab
      rw [List.count_cons_self, count_eq_ite_of_nodup d.2,
        if_neg d.1, if_pos (List.mem_cons_self _ _)]
    · rw [List.count_cons_of_ne hab, count_eq_ite_of_nodup d.2]
      by_cases hmem : a ∈ xs
      · rw [if_pos hmem, if_pos (List.mem_cons_of_mem _ hmem)]
      · rw [if_neg hmem, if_neg (by simp [hab, hmem])]

/-- Counterexample to C1 as stated: on a self-transfer whose sender and
receiver addresses coincide up to letter case, the receiver node is
pushed without consulting the address map, so the same lowercased
address is the id of two distinct nodes — the node list is not
deduplicated. -/
theorem node_dedup_counterexample :
    ¬ (((synthesizeGraph ⟨0⟩
        ⟨"0xAb", some "0xaB", [], 0, 0, 0⟩).nodes.map
          GraphNode.id).Nodup) := by
  decide

/-- C1 (amended): node identity is the lowercased address and every
lowercased log-emitting address is the id of a synthesized node (so two
log entries differing only in case collapse to the same node id); and
provided the lowercased receiver differs from the lowercased sender
whenever a receiver is present, the node ids are pairwise distinct. -/
theorem node_identity_dedup (transaction : TransactionRecord)
    (receipt : ReceiptRecord)
    (h : receipt.toAddr.getD "" ≠ "" →
      toLowerStr (receipt.toAddr.getD "") ≠ toLowerStr receipt.fromAddr) :
    ((synthesizeGraph transaction receipt).nodes.map GraphNode.id).Nodup ∧
    ∀ log ∈ receipt.logs, toLowerStr log.address ∈
      (synthesizeGraph transaction receipt).nodes.map GraphNode.id := by
  have hids : ∀ m : List String,
      ((logNodes receipt.logs m
        (dedupFirst (receipt.logs.map fun l =>
          toLowerStr l.address)).enum).map GraphNode.id).Nodup :=
    fun m => logNodes_id_nodup
      (by rw [enum_map_snd_eq]; exact dedupFirst_nodup _)
  have hcover : ∀ (m : List String), ∀ log ∈ receipt.logs,
      toLowerStr log.address ∈ m ∨ toLowerStr log.address ∈
        ((logNodes receipt.logs m
          (dedupFirst (receipt.logs.map fun l =>
            toLowerStr l.address)).enum).map GraphNode.id) := by
    intro m log hlog
    refine mem_logNodes_of_mem ?_
    rw [enum_map_snd_eq]
    exact mem_dedupFirst.2 (List.mem_map_of_mem _ hlog)
  by_cases ht : receipt.toAddr.getD "" = ""
  · simp only [synthesizeGraph]
    rw [if_neg (fun hc => hc ht), if_neg (fun hc => hc ht)]
    constructor
    · rw [List.map_append]
      refine List.nodup_append.2 ⟨List.nodup_singleton _, hids _, ?_⟩
      intro a ha hb
      obtain ⟨n, hn, rfl⟩ := List.mem_map.1 hb
      simp only [List.map_cons, List.map_nil, List.mem_singleton] at ha
      exact (logNodes_id_mem hn).2 (by simp [ha])
    · intro log hlog
      rw [List.map_append, List.mem_append]
      rcases hcover [toLowerStr receipt.fromAddr] log hlog with hm | hin
      · left; simpa using hm
      · right; exact hin
  · simp only [synthesizeGraph]
    rw [if_pos ht, if_pos ht]
    constructor
    · rw [List.map_append]
      refine List.nodup_append.2 ⟨?_, hids _, ?_⟩
      · simp only [List.map_cons, List.map_nil]
        exact List.nodup_cons.2 ⟨by simp [(h ht).symm], List.nodup_singleton _⟩
      · intro a ha hb
        obtain ⟨n, hn, rfl⟩ := List.mem_map.1 hb
        simp only [List.map_cons, List.map_nil, List.mem_cons,
          List.mem_singleton] at ha
        refine (logNodes_id_mem hn).2 ?_
        rcases ha with h1 | h2
        · simp [h1]
        · simp at h2
          simp [h2]
    · intro log hlog
      rw [List.map_append, List.mem_append]
      rcases hcover [toLowerStr (receipt.toAddr.getD ""),
          toLowerStr receipt.fromAddr] log hlog with hm | hin
      · left
        rcases List.mem_cons.1 hm with h1 | h2
        · simp [h1]
        · simp only [List.mem_singleton] at h2
          simp [h2]
      · right; exact hin

/-- Witness for C1 (amended): a concrete run with distinct sender and
receiver and two case-variants of the same log address has dedup node
ids containing the shared lowercased log address. -/
theorem node_identity_dedup_witness :
    ((synthesizeGraph ⟨1⟩
      ⟨"0xS1", some "0xR1", [⟨"0xAA"⟩, ⟨"0xaa"⟩], 0, 0, 0⟩).nodes.map
        GraphNode.id).Nodup ∧
    ∀ log ∈ [(⟨"0xAA"⟩ : LogEntry), ⟨"0xaa"⟩], toLowerStr log.address ∈
      (synthesizeGraph ⟨1⟩
        ⟨"0xS1", some "0xR1", [⟨"0xAA"⟩, ⟨"0xaa"⟩], 0, 0, 0⟩).nodes.map
          GraphNode.id :=
  node_identity_dedup ⟨1⟩
    ⟨"0xS1", some "0xR1", [⟨"0xAA"⟩, ⟨"0xaa"⟩], 0, 0, 0⟩ (by decide)

theorem count_filter_ne {a toA : String} (hne : a ≠ toA) :
    ∀ l : List String,
      (l.filter fun x => decide (x ≠ toA)).count a = l.count a
  | [] => rfl
  | b :: xs => by
    by_cases hb : b = toA
    · rw [List.filter_cons_of_neg (by simp [hb]),
        count_filter_ne hne xs, List.count_cons_of_ne (hb ▸ hne)]
    · rw [List.filter_cons_of_pos (by simpa using hb)]
      simp only [List.count_cons]
      rw [count_filter_ne hne xs]

theorem filter_sender_pred_map_eq_nil (t fromA toA : String)
    (l : List String) (hl : ∀ x ∈ l, x ≠ toA) :
    ((l.map fun x =>
        (⟨"e-main-" ++ t ++ "-" ++ x, toA, x, none⟩ : GraphEdge)).filter
      (fun e => e.source == fromA && e.target == toA)) = [] := by
  rw [List.filter_eq_nil_iff]
  intro e he
  obtain ⟨x, hx, rfl⟩ := List.mem_map.1 he
  simp [hl x hx]

theorem length_filter_edge (t toA a : String) :
    ∀ l : List String,
      ((l.map fun x =>
          (⟨"e-main-" ++ t ++ "-" ++ x, toA, x, none⟩ : GraphEdge)).filter
        (fun e => e.source == toA && e.target == a)).length =
      (l.filter (fun x => x == a)).length
  | [] => rfl
  | x :: xs => by
    simp only [List.map_cons, List.filter_cons]
    have hpred : ((⟨"e-main-" ++ t ++ "-" ++ x, toA, x,
          none⟩ : GraphEdge).source == toA &&
        (⟨"e-main-" ++ t ++ "-" ++ x, toA, x,
          none⟩ : GraphEdge).target == a) = (x == a) := by
      simp
    rw [hpred]
    cases h : (x == a) <;>
      simp [h, length_filter_edge t toA a xs]

/-- C2: with a (truthy) receiver present, filtering the synthesized
edges to those running from the lowercased sender to the lowercased
receiver yields exactly the single value-labelled transfer edge; and
for every address other than the receiver, the number of
receiver→address edges is one when the address is the lowercased
emitting address of some log and zero otherwise — one edge per
distinct address, not per log occurrence.  Without a truthy receiver
the edge list is empty, so no sender→receiver edge exists. -/
theorem edge_multiplicity (transaction : TransactionRecord)
    (receipt : ReceiptRecord) :
    (∀ t, receipt.toAddr = some t → t ≠ "" →
      ((synthesizeGraph transaction receipt).edges.filter fun e =>
          e.source == toLowerStr receipt.fromAddr &&
          e.target == toLowerStr t) =
        [{ id := "e-" ++ receipt.fromAddr ++ "-" ++ t,
           source := toLowerStr receipt.fromAddr,
           target := toLowerStr t,
           label := some (formatEther transaction.value ++ " ETH") }] ∧
      (∀ a : String, a ≠ toLowerStr t →
        ((synthesizeGraph transaction receipt).edges.filter fun e =>
            e.source == toLowerStr t && e.target == a).length =
          if a ∈ receipt.logs.map (fun l => toLowerStr l.address)
          then 1 else 0)) ∧
    (receipt.toAddr.getD "" = "" →
      (synthesizeGraph transaction receipt).edges = []) := by
  constructor
  · intro t ht hne
    constructor
    · simp only [synthesizeGraph, ht, Option.getD_some]
      rw [if_pos hne]
      rw [List.filter_cons_of_pos (by simp),
        filter_sender_pred_map_eq_nil t (toLowerStr receipt.fromAddr)
          (toLowerStr t) _
          (fun x hx => of_decide_eq_true (List.mem_filter.1 hx).2)]
    · intro a hane
      simp only [synthesizeGraph, ht, Option.getD_some]
      rw [if_pos hne]
      rw [List.filter_cons_of_neg (by simp [Ne.symm hane])]
      rw [length_filter_edge]
      have hcnt : ∀ l : List String,
          (l.filter (fun x => x == a)).length = l.count a :=
        fun l => (List.countP_eq_length_filter (fun x => x == a) l).symm
      rw [hcnt, count_filter_ne hane _,
        count_eq_ite_of_nodup (dedupFirst_nodup _)]
      simp [mem_dedupFirst]
  · intro ht
    simp [synthesizeGraph, ht]

/-- Witness for C2: a concrete run with receiver `0xR1` and logs from
`0xAA` twice (in two letter cases) and `0xBB` once produces exactly one
sender→receiver edge and one receiver→contract edge for each of the
two distinct contract addresses; a concrete run without a receiver
produces no edges. -/
theorem edge_multiplicity_witness :
    (((synthesizeGraph ⟨10 ^ 18⟩
        ⟨"0xS1", some "0xR1", [⟨"0xAA"⟩, ⟨"0xaa"⟩, ⟨"0xBB"⟩],
          0, 0, 0⟩).edges.filter fun e =>
        e.source == toLowerStr "0xS1" && e.target == toLowerStr "0xR1") =
      [{ id := "e-0xS1-0xR1", source := toLowerStr "0xS1",
         target := toLowerStr "0xR1",
         label := some (formatEther ((10 : Nat) ^ 18) ++ " ETH") }] ∧
    ((synthesizeGraph ⟨10 ^ 18⟩
        ⟨"0xS1", some "0xR1", [⟨"0xAA"⟩, ⟨"0xaa"⟩, ⟨"0xBB"⟩],
          0, 0, 0⟩).edges.filter fun e =>
        e.source == toLowerStr "0xR1" && e.target == "0xaa").length = 1) ∧
    (synthesizeGraph ⟨10 ^ 18⟩
      ⟨"0xS1", none, [⟨"0xAA"⟩], 0, 0, 0⟩).edges = [] := by
  have h1 := (edge_multiplicity ⟨10 ^ 18⟩
    ⟨"0xS1", some "0xR1", [⟨"0xAA"⟩, ⟨"0xaa"⟩, ⟨"0xBB"⟩], 0, 0, 0⟩).1
    "0xR1" rfl (by decide)
  have h2 := (edge_multiplicity ⟨10 ^ 18⟩
    ⟨"0xS1", none, [⟨"0xAA"⟩], 0, 0, 0⟩).2 rfl
  refine ⟨⟨h1.1, ?_⟩, h2⟩
  rw [h1.2 "0xaa" (by decide)]
  decide

/-- C3: for a receipt whose three logs come from contract address `a`
twice (possibly as different letter-case spellings) and contract
address `b` once, with the lowercased receiver and sender distinct from
`a`, `b` and each other, the synthesizer produces exactly four nodes —
sender, receiver, one node for `a` labelled with emission count 2 and
one node for `b` labelled with emission count 1 — and not five. -/
theorem logs_AAB_four_nodes (transaction : TransactionRecord)
    (receipt : ReceiptRecord) (t : String) (l1 l2 l3 : LogEntry)
    (a b : String)
    (ht : receipt.toAddr = some t) (hne : t ≠ "")
    (hlogs : receipt.logs = [l1, l2, l3])
    (ha1 : toLowerStr l1.address = a) (ha2 : toLowerStr l2.address = a)
    (hb3 : toLowerStr l3.address = b)
    (hab : a ≠ b)
    (hra : toLowerStr t ≠ a) (hrb : toLowerStr t ≠ b)
    (hsa : toLowerStr receipt.fromAddr ≠ a)
    (hsb : toLowerStr receipt.fromAddr ≠ b)
    (hsr : toLowerStr receipt.fromAddr ≠ toLowerStr t) :
    (synthesizeGraph transaction receipt).nodes.map GraphNode.id =
      [toLowerStr receipt.fromAddr, toLowerStr t, a, b] ∧
    (synthesizeGraph transaction receipt).nodes.length = 4 ∧
    ((synthesizeGraph transaction receipt).nodes.map GraphNode.label).drop 2
      = ["Contract: " ++ sliceFirst a 6 ++ "..." ++ sliceLast a 4 ++
           "\nEvents: " ++ toString (2 : Nat),
         "Contract: " ++ sliceFirst b 6 ++ "..." ++ sliceLast b 4 ++
           "\nEvents: " ++ toString (1 : Nat)] := by
  have hba : b ≠ a := Ne.symm hab
  have har : a ≠ toLowerStr t := Ne.symm hra
  have hbr : b ≠ toLowerStr t := Ne.symm hrb
  have has : a ≠ toLowerStr receipt.fromAddr := Ne.symm hsa
  have hbs : b ≠ toLowerStr receipt.fromAddr := Ne.symm hsb
  have hcnta : emissionCount receipt.logs a = 2 := by
    simp [emissionCount, hlogs, ha1, ha2, hb3, List.count_cons, hba]
  have hcntb : emissionCount receipt.logs b = 1 := by
    simp [emissionCount, hlogs, ha1, ha2, hb3, List.count_cons, hba, hab]
  have huniq : dedupFirst (receipt.logs.map fun l => toLowerStr l.address)
      = [a, b] := by
    simp [hlogs, ha1, ha2, hb3, dedupFirst, hba]
  simp only [synthesizeGraph, ht, Option.getD_some]
  rw [if_pos hne, if_pos hne, huniq]
  simp only [List.enum, List.enumFrom]
  rw [show logNodes receipt.logs
      [toLowerStr t, toLowerStr receipt.fromAddr] [(0, a), (1, b)] =
      (⟨a, 550, 50 + 0 * 120,
         "Contract: " ++ sliceFirst a 6 ++ "..." ++
           sliceLast a 4 ++ "\nEvents: " ++
           toString (emissionCount receipt.logs a)⟩ : GraphNode) ::
      logNodes receipt.logs
        [a, toLowerStr t, toLowerStr receipt.fromAddr] [(1, b)]
    from by rw [logNodes, if_neg (by simp [har, has])]]
  rw [show logNodes receipt.logs
      [a, toLowerStr t, toLowerStr receipt.fromAddr] [(1, b)] =
      [{ id := b, posX := 550, posY := 50 + 1 * 120,
         label := "Contract: " ++ sliceFirst b 6 ++ "..." ++
           sliceLast b 4 ++ "\nEvents: " ++
           toString (emissionCount receipt.logs b) }]
    from by rw [logNodes, if_neg (by simp [hba, hbr, hbs]), logNodes]]
  rw [hcnta, hcntb]
  simp

/-- Witness for C3: sender `0xS1`, receiver `0xR1`, logs from `0xAA`,
`0xaa` (the same contract in two spellings) and `0xBB` give exactly the
four expected node ids with counts 2 and 1. -/
theorem logs_AAB_four_nodes_witness :
    (synthesizeGraph ⟨1⟩
      ⟨"0xS1", some "0xR1", [⟨"0xAA"⟩, ⟨"0xaa"⟩, ⟨"0xBB"⟩],
        0, 0, 0⟩).nodes.map GraphNode.id =
      [toLowerStr "0xS1", toLowerStr "0xR1", "0xaa", "0xbb"] ∧
    (synthesizeGraph ⟨1⟩
      ⟨"0xS1", some "0xR1", [⟨"0xAA"⟩, ⟨"0xaa"⟩, ⟨"0xBB"⟩],
        0, 0, 0⟩).nodes.length = 4 ∧
    ((synthesizeGraph ⟨1⟩
      ⟨"0xS1", some "0xR1", [⟨"0xAA"⟩, ⟨"0xaa"⟩, ⟨"0xBB"⟩],
        0, 0, 0⟩).nodes.map GraphNode.label).drop 2
      = ["Contract: " ++ sliceFirst "0xaa" 6 ++ "..." ++
           sliceLast "0xaa" 4 ++ "\nEvents: " ++ toString (2 : Nat),
         "Contract: " ++ sliceFirst "0xbb" 6 ++ "..." ++
           sliceLast "0xbb" 4 ++ "\nEvents: " ++ toString (1 : Nat)] :=
  logs_AAB_four_nodes ⟨1⟩
    ⟨"0xS1", some "0xR1", [⟨"0xAA"⟩, ⟨"0xaa"⟩, ⟨"0xBB"⟩], 0, 0, 0⟩
    "0xR1" ⟨"0xAA"⟩ ⟨"0xaa"⟩ ⟨"0xBB"⟩ "0xaa" "0xbb"
    rfl (by decide) rfl (by decide) (by decide) (by decide) (by decide)
    (by decide) (by decide) (by decide) (by decide) (by decide)

/-- C4: with a (truthy) receiver present, the first synthesized edge is
the sender→receiver edge, labelled with the transfer value converted by
the exact arbitrary-precision decimal conversion (no floating point is
involved anywhere in the conversion), suffixed with the unit; and a
value of exactly 10^18 smallest units converts to "1". -/
theorem sender_edge_label (transaction : TransactionRecord)
    (receipt : ReceiptRecord) (t : String)
    (ht : receipt.toAddr = some t) (hne : t ≠ "") :
    (synthesizeGraph transaction receipt).edges.head? =
      some { id := "e-" ++ receipt.fromAddr ++ "-" ++ t,
             source := toLowerStr receipt.fromAddr,
             target := toLowerStr t,
             label := some (formatEther transaction.value ++ " ETH") } ∧
    formatEther (10 ^ 18) = "1" := by
  refine ⟨?_, by decide⟩
  simp only [synthesizeGraph, ht, Option.getD_some]
  rw [if_pos hne]
  rfl

/-- Witness for C4: at transfer value 10^18 wei the sender→receiver
edge carries the label "1 ETH". -/
theorem sender_edge_label_witness :
    (synthesizeGraph ⟨10 ^ 18⟩
      ⟨"0xS1", some "0xR1", [], 0, 0, 0⟩).edges.head? =
      some { id := "e-0xS1-0xR1", source := "0xs1", target := "0xr1",
             label := some "1 ETH" } := by
  have h := sender_edge_label ⟨10 ^ 18⟩ ⟨"0xS1", some "0xR1", [], 0, 0, 0⟩
    "0xR1" rfl (by decide)
  rw [h.1, h.2]
  decide

end Web3Sherlock
